import Mathlib

/-!
# Verification of `server/watcher/watcher.go`

A shallow embedding of `Watcher.Run`.  The notification library, the OS and the
consumer of the `fileChanges` channel are the environment: the environment
fixes what `fsnotify.NewWatcher()` and `watcher.Add` answer and which inputs
the `select` statement is handed, in order.  `Run` is a function of that
environment; it yields the sequence of externally visible actions it performs
and either the value it returns or the fact that it is still waiting at the
`select`.

A send `w.fileChanges <- true` is recorded when it is performed; the consumer of
the channel is taken to receive every token: the channel is open and is drained.
-/

namespace Watcher

/-! ## Go error values -/

/-- Go error values as far as `Run` builds and inspects them: a plain message
(`errors.New`, which `fmt.Errorf` uses when the format has no `%w`) or a
message around one wrapped error (`fmt.Errorf` with one `%w`). -/
inductive GoError where
  | errorString (s : String)
  | wrapError (msg : String) (err : GoError)
  deriving DecidableEq, Repr

/-- The method `Error()`. -/
def GoError.Error : GoError → String
  | .errorString s => s
  | .wrapError msg _ => msg

/-- The method `Unwrap()` as seen by `errors.Unwrap`: the wrapped error, or
nothing for an error that wraps none. -/
def GoError.Unwrap : GoError → Option GoError
  | .errorString _ => none
  | .wrapError _ err => some err

/-- The call `fmt.Errorf(pre + "%w", err)` for a format that is a literal text
followed by `%w`: the message is the text followed by `err.Error()` and the
result wraps `err`. -/
def ErrorfW (pre : String) (err : GoError) : GoError :=
  .wrapError (pre ++ err.Error) err

/-- The call `fmt.Errorf(s)` for a format without verbs. -/
def ErrorfPlain (s : String) : GoError :=
  .errorString s

/-! ## The notification library -/

namespace fsnotify

/-- Modelled from the spec: the operation bits `Create`, `Write`, `Remove`,
`Rename`, `Chmod` of the notification library, which this repository imports
and does not define.  They are distinct single bits of a 32-bit mask, here in
the library's order of declaration. -/
def Create : Nat := 1

/-- Modelled from the spec: the `Write` bit, see `Create`. -/
def Write : Nat := 2

/-- Modelled from the spec: the `Remove` bit, see `Create`. -/
def Remove : Nat := 4

/-- Modelled from the spec: the `Rename` bit, see `Create`. -/
def Rename : Nat := 8

/-- Modelled from the spec: the `Chmod` bit, see `Create`. -/
def Chmod : Nat := 16

end fsnotify

/-- What one `select` of the loop is handed.  `event` and `error` are a value
received with `ok = true`; the two closures are a receive with `ok = false`. -/
inductive Input where
  | event (name : String) (op : Nat)
  | eventsClosed
  | error (err : GoError)
  | errorsClosed
  deriving DecidableEq, Repr

/-- A Go channel of `bool`, known by its identity. -/
structure Chan where
  id : Nat
  deriving DecidableEq, Repr

/-- The externally visible actions of `Run`, in program order: the calls
`fsnotify.NewWatcher()`, `watcher.Add(dir)` and `watcher.Close()`, a completed
receive on `watcher.Events` or on `watcher.Errors`, and a send `ch <- b`. -/
inductive Action where
  | newWatcher
  | add (dir : String)
  | recvEvents
  | recvErrors
  | send (ch : Chan) (b : Bool)
  | close
  deriving DecidableEq, Repr

/-- Either `Run` is (back) at the `select`, waiting, or it has executed
`return err`; `err` is a Go `error` interface value, `none` being `nil`. -/
inductive Outcome where
  | waiting
  | returned (err : Option GoError)
  deriving DecidableEq, Repr

/-- The environment of one call of `Run`: the error result of
`fsnotify.NewWatcher()` (`none` is `nil`), the function `filepath.Dir`, the
error result of `watcher.Add` (`none` is `nil`), and the inputs handed to the
successive `select`s. -/
structure Env where
  newWatcherErr : Option GoError
  dir : String → String
  addErr : Option GoError
  inputs : List Input

end Watcher

/-- The struct `Watcher`. -/
structure Watcher where
  filename : String
  fileChanges : Watcher.Chan
  deriving DecidableEq, Repr

namespace Watcher

/-- The function `NewWatcher`. -/
def NewWatcher (filename : String) (fileChanges : Chan) : Watcher :=
  { filename := filename, fileChanges := fileChanges }

/-- Result of one pass through the body of the `for` loop: the receiver
afterwards, the actions performed, and whether the loop goes round again. -/
structure Pass where
  w : Watcher
  acts : List Action
  out : Outcome
  deriving DecidableEq, Repr

/-- One pass through the body of the `for { select { ... } }` of `Run`
(lines 46 to 62) on the input the `select` is handed. -/
def iteration (w : Watcher) : Input → Pass
  | .event name op =>
    if name == w.filename && (op &&& (fsnotify.Write ||| fsnotify.Create)) != 0 then
      { w := w, acts := [.recvEvents, .send w.fileChanges true], out := .waiting }
    else
      { w := w, acts := [.recvEvents], out := .waiting }
  | .eventsClosed =>
    { w := w, acts := [.recvEvents],
      out := .returned (some (ErrorfPlain "something is weird with the file watcher")) }
  | .error err =>
    { w := w, acts := [.recvErrors],
      out := .returned (some (ErrorfW "error in file watcher: " err)) }
  | .errorsClosed =>
    { w := w, acts := [.recvErrors],
      out := .returned (some (ErrorfPlain
        "something is weird with the file watcher around error handling")) }

/-- The `for` loop of `Run` on the inputs it is handed: passes are made until
one returns; when the inputs are used up the loop is waiting at the `select`. -/
def loop (w : Watcher) : List Input → Pass
  | [] => { w := w, acts := [], out := .waiting }
  | i :: rest =>
    let p := iteration w i
    match p.out with
    | .returned err => { w := p.w, acts := p.acts, out := .returned err }
    | .waiting =>
      let q := loop p.w rest
      { w := q.w, acts := p.acts ++ q.acts, out := q.out }

/-- The method `Run`.  The deferred `watcher.Close()` is registered once the
session exists and is executed when `Run` returns. -/
def Run (w : Watcher) (env : Env) : Pass :=
  match env.newWatcherErr with
  | some err =>
    { w := w, acts := [.newWatcher],
      out := .returned (some (ErrorfW "error watching for changes: " err)) }
  | none =>
    let p := loop w env.inputs
    match p.out with
    | .returned err =>
      { w := p.w, acts := [.newWatcher, .add (env.dir w.filename)] ++ p.acts ++ [.close],
        out := .returned err }
    | .waiting =>
      { w := p.w, acts := [.newWatcher, .add (env.dir w.filename)] ++ p.acts,
        out := .waiting }

/-! ## Observations on an action sequence -/

/-- The tokens sent on the channel `ch`, in order. -/
def sent (ch : Chan) : List Action → List Bool
  | [] => []
  | .send c b :: rest => if c = ch then b :: sent ch rest else sent ch rest
  | _ :: rest => sent ch rest

/-- The sends on channels other than `ch`. -/
def sentElsewhere (ch : Chan) : List Action → List (Chan × Bool)
  | [] => []
  | .send c b :: rest =>
    if c = ch then sentElsewhere ch rest else (c, b) :: sentElsewhere ch rest
  | _ :: rest => sentElsewhere ch rest

/-- Number of invocations of `watcher.Close()`. -/
def closes (acts : List Action) : Nat :=
  acts.count .close

/-- The directories registered with `watcher.Add`, in order. -/
def added : List Action → List String
  | [] => []
  | .add d :: rest => d :: added rest
  | _ :: rest => added rest

/-- Number of completed receives on either stream. -/
def reads (acts : List Action) : Nat :=
  acts.count .recvEvents + acts.count .recvErrors

/-! ## The vocabulary of the specification -/

/-- The bitmask `op` includes the bit `b`. -/
def includes (op b : Nat) : Prop :=
  op &&& b ≠ 0

instance (op b : Nat) : Decidable (includes op b) := by
  unfold includes; infer_instance

/-- Qualifying event, in the words of the specification: the path equals the
watched target and the operation bitmask includes `Write` or `Create`. -/
def Qualifying (f : String) : Input → Prop
  | .event name op => name = f ∧ (includes op fsnotify.Write ∨ includes op fsnotify.Create)
  | _ => False

instance (f : String) (i : Input) : Decidable (Qualifying f i) := by
  cases i <;> unfold Qualifying <;> infer_instance

/-- Terminating input: a closure of either stream or an error value. -/
def Terminating : Input → Bool
  | .event _ _ => false
  | _ => true

/-- The inputs before the first terminating one. -/
def beforeTerminating : List Input → List Input
  | [] => []
  | i :: rest => if Terminating i then [] else i :: beforeTerminating rest

/-- Number of qualifying events among the inputs. -/
def countQualifying (f : String) (inputs : List Input) : Nat :=
  (inputs.filter (fun i => decide (Qualifying f i))).length

/-! ## Helper lemmas -/

theorem and_or_ne_zero (x a b : Nat) :
    x &&& (a ||| b) ≠ 0 ↔ (x &&& a ≠ 0 ∨ x &&& b ≠ 0) := by
  rw [Nat.and_or_distrib_left]
  constructor
  · intro h
    by_contra hc
    push_neg at hc
    apply h
    rw [hc.1, hc.2]
    rfl
  · intro h hz
    have h1 : x &&& a = 0 := by
      apply Nat.eq_of_testBit_eq
      intro i
      have := congrArg (fun n => Nat.testBit n i) hz
      simp only [Nat.testBit_or, Nat.zero_testBit, Bool.or_eq_false_iff] at this
      simp [this.1]
    have h2 : x &&& b = 0 := by
      apply Nat.eq_of_testBit_eq
      intro i
      have := congrArg (fun n => Nat.testBit n i) hz
      simp only [Nat.testBit_or, Nat.zero_testBit, Bool.or_eq_false_iff] at this
      simp [this.2]
    rcases h with h | h
    · exact h h1
    · exact h h2

theorem cond_iff (f name : String) (op : Nat) :
    (name == f && (op &&& (fsnotify.Write ||| fsnotify.Create)) != 0) = true ↔
      Qualifying f (.event name op) := by
  simp only [Qualifying, includes, Bool.and_eq_true, beq_iff_eq, bne_iff_ne]
  rw [and_or_ne_zero]

theorem iteration_event_qualifying (w : Watcher) (name : String) (op : Nat)
    (h : Qualifying w.filename (.event name op)) :
    iteration w (.event name op) =
      { w := w, acts := [.recvEvents, .send w.fileChanges true], out := .waiting } := by
  have hc := (cond_iff w.filename name op).2 h
  simp only [iteration, hc, if_true]

theorem iteration_event_other (w : Watcher) (name : String) (op : Nat)
    (h : ¬ Qualifying w.filename (.event name op)) :
    iteration w (.event name op) =
      { w := w, acts := [.recvEvents], out := .waiting } := by
  have hc : ¬ (name == w.filename &&
      (op &&& (fsnotify.Write ||| fsnotify.Create)) != 0) = true :=
    fun hc => h ((cond_iff w.filename name op).1 hc)
  simp only [iteration, hc, if_false]
  rfl

theorem iteration_w (w : Watcher) (i : Input) : (iteration w i).w = w := by
  cases i with
  | event name op =>
    by_cases h : Qualifying w.filename (.event name op)
    · rw [iteration_event_qualifying w name op h]
    · rw [iteration_event_other w name op h]
  | eventsClosed => rfl
  | error err => rfl
  | errorsClosed => rfl

theorem iteration_event_out (w : Watcher) (name : String) (op : Nat) :
    (iteration w (.event name op)).out = .waiting := by
  by_cases h : Qualifying w.filename (.event name op)
  · rw [iteration_event_qualifying w name op h]
  · rw [iteration_event_other w name op h]

theorem loop_cons_event (w : Watcher) (name : String) (op : Nat) (rest : List Input) :
    loop w (.event name op :: rest) =
      { w := (loop w rest).w,
        acts := (iteration w (.event name op)).acts ++ (loop w rest).acts,
        out := (loop w rest).out } := by
  simp only [loop, iteration_event_out, iteration_w, List.append_eq]

theorem loop_cons_terminating (w : Watcher) (t : Input) (rest : List Input)
    (ht : Terminating t = true) : loop w (t :: rest) = iteration w t := by
  cases t with
  | event name op => simp [Terminating] at ht
  | eventsClosed => rfl
  | error err => rfl
  | errorsClosed => rfl

theorem sent_append (ch : Chan) (a b : List Action) :
    sent ch (a ++ b) = sent ch a ++ sent ch b := by
  induction a with
  | nil => rfl
  | cons x xs ih =>
    cases x with
    | send c t =>
      by_cases hc : c = ch
      · simp [sent, hc, ih]
      · simp [sent, hc, ih]
    | _ => simp [sent, ih]

theorem sentElsewhere_append (ch : Chan) (a b : List Action) :
    sentElsewhere ch (a ++ b) = sentElsewhere ch a ++ sentElsewhere ch b := by
  induction a with
  | nil => rfl
  | cons x xs ih =>
    cases x with
    | send c t =>
      by_cases hc : c = ch
      · simp [sentElsewhere, hc, ih]
      · simp [sentElsewhere, hc, ih]
    | _ => simp [sentElsewhere, ih]

theorem added_append (a b : List Action) : added (a ++ b) = added a ++ added b := by
  induction a with
  | nil => rfl
  | cons x xs ih => cases x <;> simp [added, ih]

theorem closes_append (a b : List Action) : closes (a ++ b) = closes a + closes b := by
  simp [closes, List.count_append]

theorem iteration_closes (w : Watcher) (i : Input) : closes (iteration w i).acts = 0 := by
  cases i with
  | event name op =>
    by_cases h : Qualifying w.filename (.event name op)
    · rw [iteration_event_qualifying w name op h]; rfl
    · rw [iteration_event_other w name op h]; rfl
  | eventsClosed => rfl
  | error err => rfl
  | errorsClosed => rfl

theorem iteration_added (w : Watcher) (i : Input) : added (iteration w i).acts = [] := by
  cases i with
  | event name op =>
    by_cases h : Qualifying w.filename (.event name op)
    · rw [iteration_event_qualifying w name op h]; rfl
    · rw [iteration_event_other w name op h]; rfl
  | eventsClosed => rfl
  | error err => rfl
  | errorsClosed => rfl

theorem iteration_sentElsewhere (w : Watcher) (i : Input) :
    sentElsewhere w.fileChanges (iteration w i).acts = [] := by
  cases i with
  | event name op =>
    by_cases h : Qualifying w.filename (.event name op)
    · rw [iteration_event_qualifying w name op h]; simp [sentElsewhere]
    · rw [iteration_event_other w name op h]; rfl
  | eventsClosed => rfl
  | error err => rfl
  | errorsClosed => rfl

theorem loop_w (w : Watcher) (inputs : List Input) : (loop w inputs).w = w := by
  induction inputs with
  | nil => rfl
  | cons i rest ih =>
    cases i with
    | event name op => rw [loop_cons_event]; exact ih
    | eventsClosed => rfl
    | error err => rfl
    | errorsClosed => rfl

theorem loop_closes (w : Watcher) (inputs : List Input) : closes (loop w inputs).acts = 0 := by
  induction inputs with
  | nil => rfl
  | cons i rest ih =>
    cases i with
    | event name op =>
      rw [loop_cons_event]
      simp only [closes_append, iteration_closes, ih]
    | eventsClosed => rfl
    | error err => rfl
    | errorsClosed => rfl

theorem loop_sentElsewhere (w : Watcher) (inputs : List Input) :
    sentElsewhere w.fileChanges (loop w inputs).acts = [] := by
  induction inputs with
  | nil => rfl
  | cons i rest ih =>
    cases i with
    | event name op =>
      rw [loop_cons_event]
      simp only [sentElsewhere_append, iteration_sentElsewhere, ih, List.append_nil]
    | eventsClosed => rfl
    | error err => rfl
    | errorsClosed => rfl

theorem loop_added (w : Watcher) (inputs : List Input) : added (loop w inputs).acts = [] := by
  induction inputs with
  | nil => rfl
  | cons i rest ih =>
    cases i with
    | event name op =>
      rw [loop_cons_event]
      simp only [added_append, iteration_added, ih, List.append_nil]
    | eventsClosed => rfl
    | error err => rfl
    | errorsClosed => rfl

theorem loop_append (w : Watcher) (pre rest : List Input)
    (hpre : ∀ i ∈ pre, Terminating i = false) :
    loop w (pre ++ rest) =
      { w := (loop w rest).w,
        acts := (loop w pre).acts ++ (loop w rest).acts,
        out := (loop w rest).out } := by
  induction pre with
  | nil => rfl
  | cons i pre ih =>
    have hi : Terminating i = false := hpre i (List.mem_cons_self i pre)
    have hrest : ∀ j ∈ pre, Terminating j = false :=
      fun j hj => hpre j (List.mem_cons_of_mem i hj)
    cases i with
    | event name op =>
      rw [List.cons_append, loop_cons_event, loop_cons_event, ih hrest]
      simp only [List.append_assoc]
    | eventsClosed => simp [Terminating] at hi
    | error err => simp [Terminating] at hi
    | errorsClosed => simp [Terminating] at hi

theorem loop_events_out (w : Watcher) (pre : List Input)
    (hpre : ∀ i ∈ pre, Terminating i = false) : (loop w pre).out = .waiting := by
  have h := loop_append w pre [] hpre
  rw [List.append_nil] at h
  rw [h]
  rfl

theorem loop_append_terminating (w : Watcher) (pre post : List Input) (t : Input)
    (hpre : ∀ i ∈ pre, Terminating i = false) (ht : Terminating t = true) :
    loop w (pre ++ t :: post) =
      { w := w,
        acts := (loop w pre).acts ++ (iteration w t).acts,
        out := (iteration w t).out } := by
  rw [loop_append w pre (t :: post) hpre, loop_cons_terminating w t post ht, iteration_w]

theorem split_inputs (inputs : List Input) :
    (∀ i ∈ inputs, Terminating i = false) ∨
      ∃ pre t post, inputs = pre ++ t :: post ∧
        (∀ i ∈ pre, Terminating i = false) ∧ Terminating t = true := by
  induction inputs with
  | nil => left; intro i hi; exact absurd hi (List.not_mem_nil i)
  | cons i rest ih =>
    by_cases hi : Terminating i = true
    · right
      exact ⟨[], i, rest, rfl, fun j hj => absurd hj (List.not_mem_nil j), hi⟩
    · have hi2 : Terminating i = false := by simpa using hi
      rcases ih with h | ⟨pre, t, post, he, hp, ht⟩
      · left
        intro j hj
        rcases List.mem_cons.1 hj with rfl | hj
        · exact hi2
        · exact h j hj
      · right
        refine ⟨i :: pre, t, post, by rw [he]; rfl, ?_, ht⟩
        intro j hj
        rcases List.mem_cons.1 hj with rfl | hj
        · exact hi2
        · exact hp j hj

theorem loop_sent (w : Watcher) (inputs : List Input) :
    sent w.fileChanges (loop w inputs).acts =
      List.replicate (countQualifying w.filename (beforeTerminating inputs)) true := by
  induction inputs with
  | nil => rfl
  | cons i rest ih =>
    cases i with
    | event name op =>
      rw [loop_cons_event, sent_append, ih]
      by_cases h : Qualifying w.filename (.event name op)
      · rw [iteration_event_qualifying w name op h]
        simp [beforeTerminating, Terminating, countQualifying, List.filter_cons, h, sent,
          List.replicate_succ]
      · rw [iteration_event_other w name op h]
        simp [beforeTerminating, Terminating, countQualifying, List.filter_cons, h, sent]
    | eventsClosed => rfl
    | error err => rfl
    | errorsClosed => rfl

theorem Run_failed (w : Watcher) (env : Env) (c : GoError) (h : env.newWatcherErr = some c) :
    Run w env =
      { w := w, acts := [.newWatcher],
        out := .returned (some (ErrorfW "error watching for changes: " c)) } := by
  simp only [Run, h]

theorem Run_returned (w : Watcher) (env : Env) (r : Option GoError)
    (h : env.newWatcherErr = none) (hr : (loop w env.inputs).out = .returned r) :
    Run w env =
      { w := w,
        acts := [.newWatcher, .add (env.dir w.filename)] ++ (loop w env.inputs).acts ++ [.close],
        out := .returned r } := by
  simp only [Run, h, hr, loop_w]

theorem Run_waiting (w : Watcher) (env : Env)
    (h : env.newWatcherErr = none) (hr : (loop w env.inputs).out = .waiting) :
    Run w env =
      { w := w,
        acts := [.newWatcher, .add (env.dir w.filename)] ++ (loop w env.inputs).acts,
        out := .waiting } := by
  simp only [Run, h, hr, loop_w]

theorem Run_sent (w : Watcher) (env : Env) (h : env.newWatcherErr = none) :
    sent w.fileChanges (Run w env).acts =
      List.replicate (countQualifying w.filename (beforeTerminating env.inputs)) true := by
  cases hr : (loop w env.inputs).out with
  | waiting =>
    rw [Run_waiting w env h hr, ← loop_sent]
    simp [sent_append, sent]
  | returned r =>
    rw [Run_returned w env r h hr, ← loop_sent]
    simp [sent_append, sent]

theorem Run_sentElsewhere (w : Watcher) (env : Env) :
    sentElsewhere w.fileChanges (Run w env).acts = [] := by
  cases hn : env.newWatcherErr with
  | some c => rw [Run_failed w env c hn]; rfl
  | none =>
    cases hr : (loop w env.inputs).out with
    | waiting =>
      rw [Run_waiting w env hn hr]
      simp [sentElsewhere_append, sentElsewhere, loop_sentElsewhere]
    | returned r =>
      rw [Run_returned w env r hn hr]
      simp [sentElsewhere_append, sentElsewhere, loop_sentElsewhere]

theorem Run_terminated (w : Watcher) (env : Env) (pre post : List Input) (t : Input)
    (h : env.newWatcherErr = none) (he : env.inputs = pre ++ t :: post)
    (hpre : ∀ i ∈ pre, Terminating i = false) (ht : Terminating t = true) :
    ∃ r, (iteration w t).out = .returned r ∧
      Run w env =
        { w := w,
          acts := [.newWatcher, .add (env.dir w.filename)] ++ (loop w pre).acts ++
            (iteration w t).acts ++ [.close],
          out := .returned r } := by
  have hl := loop_append_terminating w pre post t hpre ht
  rw [← he] at hl
  cases t with
  | event name op => simp [Terminating] at ht
  | eventsClosed =>
    refine ⟨_, rfl, ?_⟩
    rw [Run_returned w env _ h (by rw [hl]; rfl), hl]
    simp only [List.append_assoc]
  | error err =>
    refine ⟨_, rfl, ?_⟩
    rw [Run_returned w env _ h (by rw [hl]; rfl), hl]
    simp only [List.append_assoc]
  | errorsClosed =>
    refine ⟨_, rfl, ?_⟩
    rw [Run_returned w env _ h (by rw [hl]; rfl), hl]
    simp only [List.append_assoc]

/-! ## The claims -/

/-- C1: for a raw event on the target filename whose operation bitmask includes
Write or Create (whatever other bits it carries), one pass of the loop of Run
performs the receive and exactly one send of true, so exactly one token, and
goes back to waiting; the loop then carries on with the remaining inputs. -/
theorem C1_qualifying_event_sends_exactly_one_token (w : Watcher) (name : String) (op : Nat)
    (hname : name = w.filename)
    (hop : includes op fsnotify.Write ∨ includes op fsnotify.Create) :
    (iteration w (.event name op)).acts = [.recvEvents, .send w.fileChanges true] ∧
    sent w.fileChanges (iteration w (.event name op)).acts = [true] ∧
    (sent w.fileChanges (iteration w (.event name op)).acts).length = 1 ∧
    (iteration w (.event name op)).out = .waiting ∧
    ∀ rest : List Input,
      (loop w (.event name op :: rest)).acts =
        [.recvEvents, .send w.fileChanges true] ++ (loop w rest).acts ∧
      (loop w (.event name op :: rest)).out = (loop w rest).out := by
  have hq : Qualifying w.filename (.event name op) := ⟨hname, hop⟩
  have hi := iteration_event_qualifying w name op hq
  refine ⟨by rw [hi], by rw [hi]; simp [sent], by rw [hi]; simp [sent], by rw [hi], ?_⟩
  intro rest
  rw [loop_cons_event, hi]
  exact ⟨rfl, rfl⟩

/-- Witness of C1: a Write on the target combined with Remove and Chmod bits. -/
theorem C1_qualifying_event_sends_exactly_one_token_witness :
    (includes 22 fsnotify.Write ∨ includes 22 fsnotify.Create) ∧
    sent ⟨0⟩ (iteration (NewWatcher "a.txt" ⟨0⟩) (.event "a.txt" 22)).acts = [true] :=
  ⟨by decide,
    (C1_qualifying_event_sends_exactly_one_token (NewWatcher "a.txt" ⟨0⟩) "a.txt" 22 rfl
      (by decide)).2.1⟩

/-- C2: for a raw event that is not qualifying, because its name differs from
the target filename as a string or because its bitmask contains neither Write
nor Create, one pass of the loop of Run performs only the receive: no token is
sent, nothing is registered or closed, Run does not return, and the watcher is
unchanged; the loop then carries on with the remaining inputs.  Chmod, Remove
and Rename alone contain neither Write nor Create. -/
theorem C2_non_qualifying_event_has_no_effect (w : Watcher) (name : String) (op : Nat)
    (h : name ≠ w.filename ∨
      (¬ includes op fsnotify.Write ∧ ¬ includes op fsnotify.Create)) :
    iteration w (.event name op) = { w := w, acts := [.recvEvents], out := .waiting } ∧
    sent w.fileChanges (iteration w (.event name op)).acts = [] ∧
    (∀ rest : List Input,
      loop w (.event name op :: rest) =
        { w := w, acts := .recvEvents :: (loop w rest).acts, out := (loop w rest).out }) ∧
    (∀ b ∈ [fsnotify.Chmod, fsnotify.Remove, fsnotify.Rename],
      ¬ includes b fsnotify.Write ∧ ¬ includes b fsnotify.Create) := by
  have hq : ¬ Qualifying w.filename (.event name op) := by
    intro hq
    rcases h with h | h
    · exact h hq.1
    · rcases hq.2 with h2 | h2
      · exact h.1 h2
      · exact h.2 h2
  have hi := iteration_event_other w name op hq
  refine ⟨hi, by rw [hi]; rfl, ?_, by decide⟩
  intro rest
  rw [loop_cons_event, hi, loop_w]
  rfl

/-- Witness of C2: another spelling of the target filename, with a Write. -/
theorem C2_non_qualifying_event_has_no_effect_witness :
    ("./a.txt" ≠ (NewWatcher "a.txt" ⟨0⟩).filename ∨
      (¬ includes fsnotify.Write fsnotify.Write ∧
        ¬ includes fsnotify.Write fsnotify.Create)) ∧
    iteration (NewWatcher "a.txt" ⟨0⟩) (.event "./a.txt" fsnotify.Write) =
      { w := NewWatcher "a.txt" ⟨0⟩, acts := [.recvEvents], out := .waiting } :=
  ⟨by decide,
    (C2_non_qualifying_event_has_no_effect (NewWatcher "a.txt" ⟨0⟩) "./a.txt" fsnotify.Write
      (Or.inl (by decide))).1⟩

/-- C3: for every finite sequence of inputs, the tokens Run sends are one true
per qualifying event among the inputs before the first terminating input and
nothing else (Run sends on no other channel), so their number is the number of
those events; when the session
cannot be constructed no input is read and nothing is sent.  A Create on a swap
file followed by a Create on the target gives one token, and a Write on the
target followed by a Chmod on the target gives one token. -/
theorem C3_tokens_are_one_per_qualifying_event (w : Watcher) (env : Env) :
    sent w.fileChanges (loop w env.inputs).acts =
      List.replicate (countQualifying w.filename (beforeTerminating env.inputs)) true ∧
    sent w.fileChanges (Run w env).acts =
      (match env.newWatcherErr with
       | none =>
         List.replicate (countQualifying w.filename (beforeTerminating env.inputs)) true
       | some _ => []) ∧
    sentElsewhere w.fileChanges (Run w env).acts = [] ∧
    (sent w.fileChanges (loop w env.inputs).acts).length =
      countQualifying w.filename (beforeTerminating env.inputs) ∧
    sent w.fileChanges (Run (NewWatcher "main.star" w.fileChanges)
      { newWatcherErr := none, dir := env.dir, addErr := env.addErr,
        inputs := [.event ".main.star.swp" fsnotify.Create,
                   .event "main.star" fsnotify.Create] }).acts = [true] ∧
    sent w.fileChanges (Run (NewWatcher "main.star" w.fileChanges)
      { newWatcherErr := none, dir := env.dir, addErr := env.addErr,
        inputs := [.event "main.star" fsnotify.Write,
                   .event "main.star" fsnotify.Chmod] }).acts = [true] := by
  refine ⟨loop_sent w env.inputs, ?_, Run_sentElsewhere w env, ?_, ?_, ?_⟩
  · cases hn : env.newWatcherErr with
    | none => exact Run_sent w env hn
    | some c => rw [Run_failed w env c hn]; rfl
  · rw [loop_sent, List.length_replicate]
  · refine (Run_sent (NewWatcher "main.star" w.fileChanges) _ rfl).trans ?_
    show List.replicate (countQualifying "main.star" (beforeTerminating
      [.event ".main.star.swp" fsnotify.Create, .event "main.star" fsnotify.Create])) true =
      [true]
    decide
  · refine (Run_sent (NewWatcher "main.star" w.fileChanges) _ rfl).trans ?_
    show List.replicate (countQualifying "main.star" (beforeTerminating
      [.event "main.star" fsnotify.Write, .event "main.star" fsnotify.Chmod])) true = [true]
    decide

/-- C4, evaluated on the code: the error result of the registration of the
directory is discarded.  With a session constructed, a registration that fails
and no input, Run performs the registration and is waiting at the select; for
every environment the result of Run is the one it has when the registration
succeeds. -/
theorem C4_failed_registration_is_not_reported :
    Run (NewWatcher "/nonexistent/main.star" ⟨0⟩)
      { newWatcherErr := none, dir := fun _ => "/nonexistent",
        addErr := some (.errorString "no such file or directory"), inputs := [] } =
      { w := NewWatcher "/nonexistent/main.star" ⟨0⟩,
        acts := [.newWatcher, .add "/nonexistent"], out := .waiting } ∧
    ∀ (w : Watcher) (env : Env) (c : GoError),
      Run w { env with addErr := some c } = Run w { env with addErr := none } :=
  ⟨by decide, fun _ _ _ => rfl⟩

/-- C5: when the construction of the session fails with cause c, Run returns
the error that wraps c, whose message is the text "error watching for
changes: " followed by the message of c; it has sent no token, registered no
directory, read neither stream and closed nothing. -/
theorem C5_construction_failure_is_wrapped_and_returned (w : Watcher) (c : GoError)
    (dir : String → String) (addErr : Option GoError) (inputs : List Input) :
    (Run w ⟨some c, dir, addErr, inputs⟩).out =
      .returned (some (ErrorfW "error watching for changes: " c)) ∧
    (ErrorfW "error watching for changes: " c).Unwrap = some c ∧
    (ErrorfW "error watching for changes: " c).Error =
      "error watching for changes: " ++ c.Error ∧
    (Run w ⟨some c, dir, addErr, inputs⟩).acts = [.newWatcher] ∧
    sent w.fileChanges (Run w ⟨some c, dir, addErr, inputs⟩).acts = [] ∧
    added (Run w ⟨some c, dir, addErr, inputs⟩).acts = [] ∧
    reads (Run w ⟨some c, dir, addErr, inputs⟩).acts = 0 :=
  ⟨rfl, rfl, rfl, rfl, rfl, rfl, rfl⟩

/-- C6: when the error stream yields an error value c while Run is waiting
(after any number of raw events), Run returns the error that wraps c, whose
message is the text "error in file watcher: " followed by the message of c;
after the receive it only closes the session, so the tokens sent are those of
the events before, and later inputs play no part. -/
theorem C6_error_value_is_wrapped_and_returned (w : Watcher) (dir : String → String)
    (addErr : Option GoError) (pre post : List Input) (c : GoError)
    (hpre : ∀ i ∈ pre, Terminating i = false) :
    (Run w ⟨none, dir, addErr, pre ++ .error c :: post⟩).out =
      .returned (some (ErrorfW "error in file watcher: " c)) ∧
    (ErrorfW "error in file watcher: " c).Unwrap = some c ∧
    (ErrorfW "error in file watcher: " c).Error = "error in file watcher: " ++ c.Error ∧
    (Run w ⟨none, dir, addErr, pre ++ .error c :: post⟩).acts =
      [.newWatcher, .add (dir w.filename)] ++ (loop w pre).acts ++
        [.recvErrors, .close] ∧
    sent w.fileChanges (Run w ⟨none, dir, addErr, pre ++ .error c :: post⟩).acts =
      sent w.fileChanges (loop w pre).acts := by
  obtain ⟨r, hr, hrun⟩ :=
    Run_terminated w ⟨none, dir, addErr, pre ++ .error c :: post⟩ pre post (.error c)
      rfl rfl hpre rfl
  have hr2 : r = some (ErrorfW "error in file watcher: " c) := by
    have : Outcome.returned (some (ErrorfW "error in file watcher: " c)) = .returned r := hr
    injection this with h
    exact h.symm
  rw [hrun, hr2]
  refine ⟨rfl, rfl, rfl, ?_, ?_⟩
  · simp [iteration]
  · simp [iteration, sent_append, sent]

/-- Witness of C6: an I/O error after one Write on the target. -/
theorem C6_error_value_is_wrapped_and_returned_witness :
    (∀ i ∈ [Input.event "main.star" fsnotify.Write], Terminating i = false) ∧
    (Run (NewWatcher "main.star" ⟨0⟩)
      ⟨none, fun _ => ".", none,
        [Input.event "main.star" fsnotify.Write] ++
          .error (.errorString "input/output error") :: []⟩).out =
      .returned (some (ErrorfW "error in file watcher: "
        (.errorString "input/output error"))) :=
  ⟨by decide,
    (C6_error_value_is_wrapped_and_returned (NewWatcher "main.star" ⟨0⟩) (fun _ => ".") none
      [Input.event "main.star" fsnotify.Write] [] (.errorString "input/output error")
      (by decide)).1⟩

/-- C7: when the raw-event stream is closed while Run is waiting, after any
number of raw events (none included), Run returns the error whose message is
exactly "something is weird with the file watcher", and that error wraps no
cause. -/
theorem C7_events_closure_returns_plain_error (w : Watcher) (dir : String → String)
    (addErr : Option GoError) (pre post : List Input)
    (hpre : ∀ i ∈ pre, Terminating i = false) :
    (Run w ⟨none, dir, addErr, pre ++ .eventsClosed :: post⟩).out =
      .returned (some (ErrorfPlain "something is weird with the file watcher")) ∧
    (Run w ⟨none, dir, addErr, .eventsClosed :: post⟩).out =
      .returned (some (ErrorfPlain "something is weird with the file watcher")) ∧
    (ErrorfPlain "something is weird with the file watcher").Error =
      "something is weird with the file watcher" ∧
    (ErrorfPlain "something is weird with the file watcher").Unwrap = none := by
  obtain ⟨r, hr, hrun⟩ :=
    Run_terminated w ⟨none, dir, addErr, pre ++ .eventsClosed :: post⟩ pre post .eventsClosed
      rfl rfl hpre rfl
  have hr2 : r = some (ErrorfPlain "something is weird with the file watcher") := by
    have : Outcome.returned (some (ErrorfPlain "something is weird with the file watcher")) =
        .returned r := hr
    injection this with h
    exact h.symm
  rw [hrun, hr2]
  exact ⟨rfl, rfl, rfl, rfl⟩

/-- Witness of C7: the closure after a qualifying and a non-qualifying event. -/
theorem C7_events_closure_returns_plain_error_witness :
    (∀ i ∈ [Input.event "main.star" fsnotify.Create, Input.event "other" fsnotify.Write],
      Terminating i = false) ∧
    (Run (NewWatcher "main.star" ⟨0⟩)
      ⟨none, fun _ => ".", none,
        [Input.event "main.star" fsnotify.Create, Input.event "other" fsnotify.Write] ++
          .eventsClosed :: []⟩).out =
      .returned (some (ErrorfPlain "something is weird with the file watcher")) :=
  ⟨by decide,
    (C7_events_closure_returns_plain_error (NewWatcher "main.star" ⟨0⟩) (fun _ => ".") none
      [Input.event "main.star" fsnotify.Create, Input.event "other" fsnotify.Write] []
      (by decide)).1⟩

/-- C8: when the error stream is closed while Run is waiting, Run returns the
error whose message is "something is weird with the file watcher around error
handling"; that error and its message differ from the error returned on closure
of the raw-event stream and, for every cause, from the error that wraps an
error value of the error stream and from the error that wraps a failure to
construct the session. -/
theorem C8_error_stream_closure_is_distinguishable (w : Watcher) (dir : String → String)
    (addErr : Option GoError) (pre post : List Input)
    (hpre : ∀ i ∈ pre, Terminating i = false) :
    (Run w ⟨none, dir, addErr, pre ++ .errorsClosed :: post⟩).out =
      .returned (some (ErrorfPlain
        "something is weird with the file watcher around error handling")) ∧
    (ErrorfPlain "something is weird with the file watcher around error handling").Error =
      "something is weird with the file watcher around error handling" ∧
    (ErrorfPlain "something is weird with the file watcher around error handling").Error ≠
      (ErrorfPlain "something is weird with the file watcher").Error ∧
    ErrorfPlain "something is weird with the file watcher around error handling" ≠
      ErrorfPlain "something is weird with the file watcher" ∧
    ∀ c : GoError,
      ErrorfPlain "something is weird with the file watcher around error handling" ≠
        ErrorfW "error in file watcher: " c ∧
      (ErrorfPlain "something is weird with the file watcher around error handling").Error ≠
        (ErrorfW "error in file watcher: " c).Error ∧
      ErrorfPlain "something is weird with the file watcher around error handling" ≠
        ErrorfW "error watching for changes: " c ∧
      (ErrorfPlain "something is weird with the file watcher around error handling").Error ≠
        (ErrorfW "error watching for changes: " c).Error := by
  obtain ⟨r, hr, hrun⟩ :=
    Run_terminated w ⟨none, dir, addErr, pre ++ .errorsClosed :: post⟩ pre post .errorsClosed
      rfl rfl hpre rfl
  have hr2 : r = some (ErrorfPlain
      "something is weird with the file watcher around error handling") := by
    have : Outcome.returned (some (ErrorfPlain
        "something is weird with the file watcher around error handling")) =
        .returned r := hr
    injection this with h
    exact h.symm
  rw [hrun, hr2]
  refine ⟨rfl, rfl, by decide, by decide, ?_⟩
  intro c
  refine ⟨fun h => GoError.noConfusion h, ?_, fun h => GoError.noConfusion h, ?_⟩
  · intro h
    have hd := congrArg String.data h
    simp [ErrorfPlain, ErrorfW, GoError.Error, String.data_append] at hd
  · intro h
    have hd := congrArg String.data h
    simp [ErrorfPlain, ErrorfW, GoError.Error, String.data_append] at hd

/-- Witness of C8: the error stream is closed before any event. -/
theorem C8_error_stream_closure_is_distinguishable_witness :
    (∀ i ∈ ([] : List Input), Terminating i = false) ∧
    (Run (NewWatcher "main.star" ⟨0⟩)
      ⟨none, fun _ => ".", none, [] ++ .errorsClosed :: []⟩).out =
      .returned (some (ErrorfPlain
        "something is weird with the file watcher around error handling")) :=
  ⟨by decide,
    (C8_error_stream_closure_is_distinguishable (NewWatcher "main.star" ⟨0⟩) (fun _ => ".") none
      [] [] (by decide)).1⟩

/-- C9: whenever Run returns, the returned value is a non-nil error of one of
four kinds, each in response to its condition: the session could not be
constructed, or it was constructed and, after raw events only, the event stream
was closed, the error stream gave an error value, or the error stream was
closed.  No raw event makes a pass of the loop return, and on raw events alone
Run is still waiting. -/
theorem C9_Run_returns_only_a_failure (w : Watcher) (env : Env) (r : Option GoError)
    (h : (Run w env).out = .returned r) :
    (∃ e, r = some e ∧
      ((∃ c, env.newWatcherErr = some c ∧ e = ErrorfW "error watching for changes: " c) ∨
       (env.newWatcherErr = none ∧
        ∃ pre t post, env.inputs = pre ++ t :: post ∧
          (∀ i ∈ pre, Terminating i = false) ∧
          ((t = .eventsClosed ∧
              e = ErrorfPlain "something is weird with the file watcher") ∨
           (∃ c, t = .error c ∧ e = ErrorfW "error in file watcher: " c) ∨
           (t = .errorsClosed ∧
              e = ErrorfPlain
                "something is weird with the file watcher around error handling"))))) ∧
    (∀ (name : String) (op : Nat), (iteration w (.event name op)).out = .waiting) ∧
    (∀ (dir : String → String) (addErr : Option GoError) (events : List Input),
      (∀ i ∈ events, Terminating i = false) →
        (Run w ⟨none, dir, addErr, events⟩).out = .waiting) := by
  refine ⟨?_, iteration_event_out w, ?_⟩
  · cases hn : env.newWatcherErr with
    | some c =>
      rw [Run_failed w env c hn] at h
      injection h with h
      exact ⟨_, h.symm, Or.inl ⟨c, rfl, rfl⟩⟩
    | none =>
      rcases split_inputs env.inputs with hall | ⟨pre, t, post, he, hpre, ht⟩
      · rw [Run_waiting w env hn (loop_events_out w env.inputs hall)] at h
        exact Outcome.noConfusion h
      · obtain ⟨r2, hr2, hrun⟩ := Run_terminated w env pre post t hn he hpre ht
        rw [hrun] at h
        injection h with h
        subst h
        cases t with
        | event name op => simp [Terminating] at ht
        | eventsClosed =>
          injection hr2 with hr2
          exact ⟨_, hr2.symm, Or.inr ⟨rfl, pre, _, post, he, hpre, Or.inl ⟨rfl, rfl⟩⟩⟩
        | error err =>
          injection hr2 with hr2
          exact ⟨_, hr2.symm,
            Or.inr ⟨rfl, pre, _, post, he, hpre, Or.inr (Or.inl ⟨err, rfl, rfl⟩)⟩⟩
        | errorsClosed =>
          injection hr2 with hr2
          exact ⟨_, hr2.symm,
            Or.inr ⟨rfl, pre, _, post, he, hpre, Or.inr (Or.inr ⟨rfl, rfl⟩)⟩⟩
  · intro dir addErr events hall
    rw [Run_waiting w ⟨none, dir, addErr, events⟩ rfl (loop_events_out w events hall)]

/-- Witness of C9: Run returns on the closure of the event stream that follows
a Write on the target, with an error that is not nil. -/
theorem C9_Run_returns_only_a_failure_witness :
    (Run (NewWatcher "main.star" ⟨0⟩)
      ⟨none, fun _ => ".", none,
        [.event "main.star" fsnotify.Write, .eventsClosed]⟩).out =
      .returned (some (ErrorfPlain "something is weird with the file watcher")) ∧
    ∃ e, some (ErrorfPlain "something is weird with the file watcher") = some e :=
  ⟨by decide,
    (C9_Run_returns_only_a_failure (NewWatcher "main.star" ⟨0⟩)
      ⟨none, fun _ => ".", none, [.event "main.star" fsnotify.Write, .eventsClosed]⟩
      (some (ErrorfPlain "something is weird with the file watcher"))
      (by decide)).1.imp fun _ he => he.1⟩

/-- C10: whenever Run returns with a session acquired, Close has been invoked
exactly once and is the last action, after every send; whenever Run returns
because the session could not be constructed, Close has not been invoked and
the only action is the attempt to construct the session. -/
theorem C10_session_closed_exactly_once_on_return (w : Watcher) (env : Env)
    (r : Option GoError) (h : (Run w env).out = .returned r) :
    (env.newWatcherErr = none →
      closes (Run w env).acts = 1 ∧
      ∃ body, (Run w env).acts = body ++ [.close] ∧ closes body = 0 ∧
        sent w.fileChanges body = sent w.fileChanges (Run w env).acts) ∧
    (env.newWatcherErr ≠ none →
      closes (Run w env).acts = 0 ∧ (Run w env).acts = [.newWatcher]) := by
  constructor
  · intro hn
    cases hl : (loop w env.inputs).out with
    | waiting =>
      rw [Run_waiting w env hn hl] at h
      exact Outcome.noConfusion h
    | returned r2 =>
      rw [Run_returned w env r2 hn hl]
      have hb : closes ([.newWatcher, .add (env.dir w.filename)] ++ (loop w env.inputs).acts)
          = 0 := by
        rw [closes_append, loop_closes]
        rfl
      refine ⟨?_, _, rfl, hb, ?_⟩
      · show closes (([.newWatcher, .add (env.dir w.filename)] ++ (loop w env.inputs).acts) ++
          [.close]) = 1
        rw [closes_append, hb]
        rfl
      · show _ = sent w.fileChanges (([.newWatcher, .add (env.dir w.filename)] ++
          (loop w env.inputs).acts) ++ [.close])
        rw [sent_append w.fileChanges _ [.close]]
        simp [sent]
  · intro hn
    cases hc : env.newWatcherErr with
    | none => exact absurd hc hn
    | some c =>
      rw [Run_failed w env c hc]
      exact ⟨rfl, rfl⟩

/-- Witness of C10: a Write on the target and then an error value; the actions
end with the one Close. -/
theorem C10_session_closed_exactly_once_on_return_witness :
    (Run (NewWatcher "main.star" ⟨0⟩)
      ⟨none, fun _ => ".", none,
        [.event "main.star" fsnotify.Write,
         .error (.errorString "input/output error")]⟩).out =
      .returned (some (ErrorfW "error in file watcher: "
        (.errorString "input/output error"))) ∧
    closes (Run (NewWatcher "main.star" ⟨0⟩)
      ⟨none, fun _ => ".", none,
        [.event "main.star" fsnotify.Write,
         .error (.errorString "input/output error")]⟩).acts = 1 :=
  ⟨by decide,
    ((C10_session_closed_exactly_once_on_return (NewWatcher "main.star" ⟨0⟩)
      ⟨none, fun _ => ".", none,
        [.event "main.star" fsnotify.Write, .error (.errorString "input/output error")]⟩
      (some (ErrorfW "error in file watcher: " (.errorString "input/output error")))
      (by decide)).1 rfl).1⟩

end Watcher
